import Mathlib

/-!
Shallow embedding of the crypto-auto-trader core pipeline
(portfolio_engine.py, risk_engine.py, strategy_engine.py,
agent_engine.py, execution_engine.py).

Python floats are modelled as exact rationals (ℚ); python dicts
(insertion-ordered, unique keys) are modelled as association lists with
first-match lookup, in-place update of the first matching key, append on
fresh keys, and erase of the first matching key.  Timestamps and
display-only formatted strings (agent `status`, interpolated notes) are
not part of any verified property and are omitted or kept as plain
string constants.
-/

/-- First-match lookup in an association list (python `d.get(k)` / `k in d`). -/
def dictLookup {α : Type} : List (String × α) → String → Option α
  | [], _ => none
  | (t, v) :: rest, s => if t = s then some v else dictLookup rest s

/-- Update the first entry with the given key in place, or append a fresh
entry at the end (python `d[k] = v` with dict insertion-order semantics). -/
def dictSet {α : Type} : List (String × α) → String → α → List (String × α)
  | [], s, v => [(s, v)]
  | (t, w) :: rest, s, v =>
      if t = s then (s, v) :: rest else (t, w) :: dictSet rest s v

/-- Remove the first entry with the given key (python `del d[k]`). -/
def dictErase {α : Type} : List (String × α) → String → List (String × α)
  | [], _ => []
  | (t, w) :: rest, s => if t = s then rest else (t, w) :: dictErase rest s

/-- Trading signal produced each cycle. -/
inductive Signal where
  | BUY
  | SELL
  | HOLD
deriving DecidableEq, Repr

/-- A risk-guardian decision: final signal, position amount and reason text. -/
structure Decision where
  signal : Signal
  amount : ℚ
  reason : String
deriving DecidableEq, Repr

/-- One open position: held amount and cost-weighted average entry price
(portfolio_engine.py, the values of `self.positions`). -/
structure Position where
  amount : ℚ
  average_entry_price : ℚ
deriving DecidableEq, Repr

/-- State of `PortfolioEngine` (portfolio_engine.py lines 5-8). -/
structure PortfolioEngine where
  initial_balance : ℚ
  cash_balance : ℚ
  positions : List (String × Position)
deriving DecidableEq, Repr

/-- `PortfolioEngine.get_portfolio_value` (portfolio_engine.py lines 10-19):
cash plus amount × current price over positions present in the price map;
positions without a current price contribute nothing. -/
def PortfolioEngine.get_portfolio_value (p : PortfolioEngine)
    (current_prices : List (String × ℚ)) : ℚ :=
  p.cash_balance +
    (p.positions.map (fun e =>
      match dictLookup current_prices e.1 with
      | some pr => e.2.amount * pr
      | none => 0)).sum

/-- `PortfolioEngine.add_position` (portfolio_engine.py lines 21-50).
Returns the python `bool` result together with the successor state. -/
def PortfolioEngine.add_position (p : PortfolioEngine) (symbol : String)
    (amount price : ℚ) : Bool × PortfolioEngine :=
  let cost := amount * price
  if p.cash_balance < cost then
    (false, p)
  else
    let p1 : PortfolioEngine := { p with cash_balance := p.cash_balance - cost }
    match dictLookup p1.positions symbol with
    | some old =>
        let new_amount := old.amount + amount
        let new_price :=
          (old.amount * old.average_entry_price + amount * price) / new_amount
        let ps := dictSet p1.positions symbol ⟨new_amount, new_price⟩
        (true, { p1 with positions := ps })
    | none =>
        let ps := dictSet p1.positions symbol ⟨amount, price⟩
        (true, { p1 with positions := ps })

/-- `PortfolioEngine.remove_position` (portfolio_engine.py lines 52-69).
Returns the python `bool` result together with the successor state. -/
def PortfolioEngine.remove_position (p : PortfolioEngine) (symbol : String)
    (amount price : ℚ) : Bool × PortfolioEngine :=
  match dictLookup p.positions symbol with
  | none => (false, p)
  | some pos =>
      if pos.amount < amount then
        (false, p)
      else
        let p1 : PortfolioEngine :=
          { p with cash_balance := p.cash_balance + amount * price }
        let new_amount := pos.amount - amount
        let ps := dictSet p1.positions symbol ⟨new_amount, pos.average_entry_price⟩
        let ps := if new_amount < 1e-8 then dictErase ps symbol else ps
        (true, { p1 with positions := ps })

/-- `PortfolioEngine.get_position` (portfolio_engine.py lines 71-73). -/
def PortfolioEngine.get_position (p : PortfolioEngine) (symbol : String) :
    Option Position :=
  dictLookup p.positions symbol

/-- State of `RiskEngine` (risk_engine.py lines 5-9). -/
structure RiskEngine where
  max_position_pct : ℚ
  max_exposure_pct : ℚ
deriving DecidableEq, Repr

/-- `RiskEngine.validate_position_size` (risk_engine.py lines 11-16). -/
def RiskEngine.validate_position_size (re : RiskEngine)
    (current_portfolio_value proposed_trade_value : ℚ) : Bool :=
  proposed_trade_value ≤ current_portfolio_value * re.max_position_pct

/-- `RiskEngine.validate_exposure` (risk_engine.py lines 18-23). -/
def RiskEngine.validate_exposure (re : RiskEngine)
    (current_portfolio_value total_open_positions_value proposed_trade_value : ℚ) :
    Bool :=
  total_open_positions_value + proposed_trade_value ≤
    current_portfolio_value * re.max_exposure_pct

/-- `RiskEngine.calculate_position_size` (risk_engine.py lines 25-31). -/
def RiskEngine.calculate_position_size (re : RiskEngine)
    (current_portfolio_value current_price : ℚ) : ℚ :=
  current_portfolio_value * re.max_position_pct / current_price

/-- `RiskEngine.update_risk_parameters` (risk_engine.py lines 33-41):
each percentage is validated independently; an out-of-bound value leaves
the corresponding field unchanged. -/
def RiskEngine.update_risk_parameters (re : RiskEngine)
    (max_position_pct max_exposure_pct : ℚ) : RiskEngine :=
  let re1 := if 0 < max_position_pct ∧ max_position_pct ≤ 1 then
      { re with max_position_pct := max_position_pct } else re
  if 0 < max_exposure_pct ∧ max_exposure_pct ≤ 1 then
    { re1 with max_exposure_pct := max_exposure_pct } else re1

/-- State of `StrategyEngine` (strategy_engine.py lines 7-9); the windows
are python ints, so arbitrary integers may be offered to the setter. -/
structure StrategyEngine where
  short_window : ℤ
  long_window : ℤ
deriving DecidableEq, Repr

/-- `StrategyEngine.update_strategy_parameters` (strategy_engine.py
lines 53-57): applied only when `0 < short_window < long_window`. -/
def StrategyEngine.update_strategy_parameters (e : StrategyEngine)
    (short_window long_window : ℤ) : StrategyEngine :=
  if 0 < short_window ∧ short_window < long_window then
    ⟨short_window, long_window⟩
  else e

/-- Rolling mean of window `w` evaluated at the last element of the list:
pandas `rolling(window=w).mean()` at the final row, `none` standing for NaN
(fewer than `w` rows available). -/
def smaOfLast (w : ℕ) (l : List ℚ) : Option ℚ :=
  if 0 < w ∧ w ≤ l.length then
    some ((l.drop (l.length - w)).sum / (w : ℚ))
  else none

/-- Pandas comparison `x <= y` where either side may be NaN: any comparison
with NaN yields `False`. -/
def oLE : Option ℚ → Option ℚ → Bool
  | some x, some y => x ≤ y
  | _, _ => false

/-- Pandas comparison `x < y` where either side may be NaN. -/
def oLT : Option ℚ → Option ℚ → Bool
  | some x, some y => x < y
  | _, _ => false

/-- `StrategyEngine.generate_signal` (strategy_engine.py lines 11-51) on the
series of closes.  The second branch models the `IndexError` on
`df.iloc[-2]` for a single-row frame (caught and turned into HOLD); the
`iloc[-2]` row's rolling means are the rolling means of the series with
its last element dropped. -/
def generate_signal (short_window long_window : ℕ) (closes : List ℚ) : Signal :=
  if closes.length = 0 ∨ closes.length < long_window then .HOLD
  else if closes.length < 2 then .HOLD
  else if (smaOfLast long_window closes).isNone ∨
      (smaOfLast long_window closes.dropLast).isNone then .HOLD
  else if oLE (smaOfLast short_window closes.dropLast)
        (smaOfLast long_window closes.dropLast)
      && oLT (smaOfLast long_window closes) (smaOfLast short_window closes) then
    .BUY
  else if oLE (smaOfLast long_window closes.dropLast)
        (smaOfLast short_window closes.dropLast)
      && oLT (smaOfLast short_window closes) (smaOfLast long_window closes) then
    .SELL
  else .HOLD

/-- `BaseAgent` memory record (agent_engine.py lines 12-18). -/
structure AgentMemory where
  total_trades : ℕ
  wins : ℕ
  losses : ℕ
  current_streak : ℤ
  adaptations : List String
deriving DecidableEq, Repr

/-- The counter/streak part of `BaseAgent.update_memory` (agent_engine.py
lines 20-34); each concrete agent's `update_memory` is this followed by
its own `_adapt`. -/
def BaseAgent.update_memory_core (m : AgentMemory) (realized_pnl : ℚ) :
    AgentMemory :=
  let m1 := { m with total_trades := m.total_trades + 1 }
  if 0 < realized_pnl then
    { m1 with
      wins := m1.wins + 1
      current_streak :=
        if 0 < m1.current_streak then m1.current_streak + 1 else 1 }
  else if realized_pnl < 0 then
    { m1 with
      losses := m1.losses + 1
      current_streak :=
        if m1.current_streak < 0 then m1.current_streak - 1 else -1 }
  else m1

/-- State of `ScoutAgent` (agent_engine.py lines 44-51). -/
structure ScoutAgent where
  volatility_threshold : ℚ
  memory : AgentMemory
deriving DecidableEq, Repr

/-- `ScoutAgent._adapt` (agent_engine.py lines 53-59). -/
def ScoutAgent._adapt (a : ScoutAgent) : ScoutAgent :=
  if a.memory.current_streak ≤ -3 then
    { a with
      volatility_threshold := 0.02
      memory := { a.memory with
        adaptations := ["Tightened Volatility Filter (Loss Streak)"] } }
  else
    { a with
      volatility_threshold := 0.05
      memory := { a.memory with adaptations := [] } }

/-- `ScoutAgent` inherited `update_memory` (agent_engine.py lines 20-36). -/
def ScoutAgent.update_memory (a : ScoutAgent) (realized_pnl : ℚ) : ScoutAgent :=
  ScoutAgent._adapt
    { a with memory := BaseAgent.update_memory_core a.memory realized_pnl }

/-- State of `AnalystAgent` (agent_engine.py lines 98-105); the strategy
engine reference is carried for fidelity but unused by memory updates. -/
structure AnalystAgent where
  strategy_engine : StrategyEngine
  requires_scout_alignment : Bool
  memory : AgentMemory
deriving DecidableEq, Repr

/-- `AnalystAgent._adapt` (agent_engine.py lines 107-115): a sticky switch,
streaks in (-2, 2) leave the alignment flag unchanged. -/
def AnalystAgent._adapt (a : AnalystAgent) : AnalystAgent :=
  if a.memory.current_streak ≤ -2 then
    { a with
      requires_scout_alignment := true
      memory := { a.memory with
        adaptations := ["Requiring Scout Alignment (Loss Streak)"] } }
  else if 2 ≤ a.memory.current_streak then
    { a with
      requires_scout_alignment := false
      memory := { a.memory with
        adaptations := ["Relaxed Alignment (Win Streak)"] } }
  else
    { a with memory := { a.memory with adaptations := [] } }

/-- `AnalystAgent` inherited `update_memory` (agent_engine.py lines 20-36). -/
def AnalystAgent.update_memory (a : AnalystAgent) (realized_pnl : ℚ) :
    AnalystAgent :=
  AnalystAgent._adapt
    { a with memory := BaseAgent.update_memory_core a.memory realized_pnl }

/-- State of `RiskGuardianAgent` (agent_engine.py lines 142-150). -/
structure RiskGuardianAgent where
  risk_engine : RiskEngine
  cooldown_cycles_remaining : ℕ
  size_modifier : ℚ
  memory : AgentMemory
deriving DecidableEq, Repr

/-- `RiskGuardianAgent._adapt` (agent_engine.py lines 152-167): on a streak
of -3 or worse the 5-cycle cooldown is armed only when not already cooling
down, and the size modifier drops to 0.5. -/
def RiskGuardianAgent._adapt (g : RiskGuardianAgent) : RiskGuardianAgent :=
  if g.memory.current_streak ≤ -3 then
    { g with
      cooldown_cycles_remaining :=
        if g.cooldown_cycles_remaining = 0 then 5
        else g.cooldown_cycles_remaining
      size_modifier := 0.5
      memory := { g.memory with
        adaptations := ["Active Cooldown", "Reduced Sizing (-50%)"] } }
  else if g.memory.current_streak ≤ -1 then
    { g with
      size_modifier := 0.75
      memory := { g.memory with adaptations := ["Cautious Sizing (-25%)"] } }
  else if 3 ≤ g.memory.current_streak then
    { g with
      size_modifier := 1.25
      memory := { g.memory with adaptations := ["Aggressive Sizing (+25%)"] } }
  else
    { g with
      size_modifier := 1
      memory := { g.memory with adaptations := [] } }

/-- `RiskGuardianAgent` inherited `update_memory` (agent_engine.py
lines 20-36). -/
def RiskGuardianAgent.update_memory (g : RiskGuardianAgent)
    (realized_pnl : ℚ) : RiskGuardianAgent :=
  RiskGuardianAgent._adapt
    { g with memory := BaseAgent.update_memory_core g.memory realized_pnl }

/-- `RiskGuardianAgent.evaluate` (agent_engine.py lines 169-214).  Returns
the decision dict together with the successor agent state.  The approval
reason interpolates the modifier in python; the constant here stands for
that display-only text. -/
def RiskGuardianAgent.evaluate (g : RiskGuardianAgent) (proposal : Signal)
    (current_portfolio_value total_open_value current_price : ℚ) :
    Decision × RiskGuardianAgent :=
  if 0 < g.cooldown_cycles_remaining then
    let g1 := { g with
      cooldown_cycles_remaining := g.cooldown_cycles_remaining - 1 }
    let g2 := if 0 < g1.cooldown_cycles_remaining then g1
      else RiskGuardianAgent._adapt g1
    (⟨.HOLD, 0, "Blocked by active cooldown."⟩, g2)
  else
    match proposal with
    | .HOLD => (⟨.HOLD, 0, "No trade proposed."⟩, g)
    | .SELL => (⟨.SELL, -1, "Sell approved by risk logic."⟩, g)
    | .BUY =>
        let base_calc_amount :=
          g.risk_engine.calculate_position_size current_portfolio_value
            current_price
        let proposed_amount := base_calc_amount * g.size_modifier
        let proposed_value := proposed_amount * current_price
        let valid_size := g.risk_engine.validate_position_size
          current_portfolio_value proposed_value
        let valid_exposure := g.risk_engine.validate_exposure
          current_portfolio_value total_open_value proposed_value
        if valid_size && valid_exposure then
          (⟨.BUY, proposed_amount, "Sizing approved"⟩, g)
        else
          (⟨.HOLD, 0,
            "Risk Rejected: " ++
              (if !valid_size then "Max Position Size limit"
               else "Max Exposure limit")⟩, g)

/-- One trade-history record (execution_engine.py lines 74-86); the
timestamp and the free-form note are display-only and omitted. -/
structure TradeLogEntry where
  symbol : String
  action : String
  amount : ℚ
  price : ℚ
  value : ℚ
deriving DecidableEq, Repr

/-- State of `ExecutionEngine` (execution_engine.py lines 12-21). -/
structure ExecutionEngine where
  portfolio : PortfolioEngine
  trade_history : List TradeLogEntry
  scout : ScoutAgent
  analyst : AnalystAgent
  guardian : RiskGuardianAgent
deriving DecidableEq, Repr

/-- The exposure sum computed inline in `ExecutionEngine.execute_cycle`
(execution_engine.py lines 37-40): each position is valued at the current
price when the price map has its symbol and at its average entry price
otherwise. -/
def ExecutionEngine.total_open_value (positions : List (String × Position))
    (current_prices : List (String × ℚ)) : ℚ :=
  (positions.map (fun e =>
    e.2.amount *
      (match dictLookup current_prices e.1 with
       | some pr => pr
       | none => e.2.average_entry_price))).sum

/-- The execution tail of `ExecutionEngine.execute_cycle`
(execution_engine.py lines 45-72): applies an already-computed guardian
decision to the ledger, the trade log and — on a settled SELL — the three
agents' memories. -/
def ExecutionEngine.execute_decision (st : ExecutionEngine) (symbol : String)
    (current_price : ℚ) (guardian_decision : Decision) : ExecutionEngine :=
  match guardian_decision.signal with
  | .BUY =>
      let proposed_amount := guardian_decision.amount
      let r := st.portfolio.add_position symbol proposed_amount current_price
      if r.1 then
        { st with
          portfolio := r.2
          trade_history := st.trade_history ++
            [⟨symbol, "BUY", proposed_amount, current_price,
              proposed_amount * current_price⟩] }
      else
        { st with
          portfolio := r.2
          trade_history := st.trade_history ++
            [⟨symbol, "REJECTED_FUNDS", proposed_amount, current_price,
              proposed_amount * current_price⟩] }
  | .SELL =>
      match st.portfolio.get_position symbol with
      | some position =>
          if 0 < position.amount then
            let amount_to_sell := position.amount
            let r := st.portfolio.remove_position symbol amount_to_sell
              current_price
            if r.1 then
              let realized_pnl :=
                (current_price - position.average_entry_price) * amount_to_sell
              { st with
                portfolio := r.2
                scout := st.scout.update_memory realized_pnl
                analyst := st.analyst.update_memory realized_pnl
                guardian := st.guardian.update_memory realized_pnl
                trade_history := st.trade_history ++
                  [⟨symbol, "SELL", amount_to_sell, current_price,
                    amount_to_sell * current_price⟩] }
            else st
          else st
      | none => st
  | .HOLD => st

/-! ### Association-list lemmas -/

theorem dictLookup_eq_none_of_not_mem {α : Type} {l : List (String × α)}
    {s : String} (h : s ∉ l.map Prod.fst) : dictLookup l s = none := by
  induction l with
  | nil => rfl
  | cons hd tl ih =>
      obtain ⟨t, w⟩ := hd
      simp only [List.map_cons, List.mem_cons, not_or] at h
      simp only [dictLookup]
      rw [if_neg (Ne.symm h.1)]
      exact ih h.2

theorem dictLookup_append_of_eq_none {α : Type} {l1 : List (String × α)}
    (l2 : List (String × α)) {s : String} (h : dictLookup l1 s = none) :
    dictLookup (l1 ++ l2) s = dictLookup l2 s := by
  induction l1 with
  | nil => rfl
  | cons hd tl ih =>
      obtain ⟨t, w⟩ := hd
      by_cases ht : t = s
      · simp [dictLookup, ht] at h
      · simp only [dictLookup, if_neg ht] at h
        simpa only [List.cons_append, dictLookup, if_neg ht] using ih h

theorem dictSet_eq_append_of_none {α : Type} {l : List (String × α)}
    {s : String} (v : α) (h : dictLookup l s = none) :
    dictSet l s v = l ++ [(s, v)] := by
  induction l with
  | nil => rfl
  | cons hd tl ih =>
      obtain ⟨t, w⟩ := hd
      by_cases ht : t = s
      · simp [dictLookup, ht] at h
      · simp only [dictLookup, if_neg ht] at h
        simp only [dictSet, if_neg ht, List.cons_append, ih h]

theorem dictSet_append_of_eq_none {α : Type} {l1 : List (String × α)}
    (l2 : List (String × α)) {s : String} (v : α)
    (h : dictLookup l1 s = none) :
    dictSet (l1 ++ l2) s v = l1 ++ dictSet l2 s v := by
  induction l1 with
  | nil => rfl
  | cons hd tl ih =>
      obtain ⟨t, w⟩ := hd
      by_cases ht : t = s
      · simp [dictLookup, ht] at h
      · simp only [dictLookup, if_neg ht] at h
        simp only [List.cons_append, dictSet, if_neg ht, List.append_eq, ih h]

theorem dictErase_append_of_eq_none {α : Type} {l1 : List (String × α)}
    (l2 : List (String × α)) {s : String} (h : dictLookup l1 s = none) :
    dictErase (l1 ++ l2) s = l1 ++ dictErase l2 s := by
  induction l1 with
  | nil => rfl
  | cons hd tl ih =>
      obtain ⟨t, w⟩ := hd
      by_cases ht : t = s
      · simp [dictLookup, ht] at h
      · simp only [dictLookup, if_neg ht] at h
        simp only [List.cons_append, dictErase, if_neg ht, List.append_eq, ih h]

theorem mem_dictSet {α : Type} {l : List (String × α)} {s : String} {v : α}
    {e : String × α} (h : e ∈ dictSet l s v) : e ∈ l ∨ e = (s, v) := by
  induction l with
  | nil => simpa [dictSet] using h
  | cons hd tl ih =>
      obtain ⟨t, w⟩ := hd
      by_cases ht : t = s
      · simp only [dictSet, if_pos ht, List.mem_cons] at h
        rcases h with h | h
        · exact Or.inr h
        · exact Or.inl (List.mem_cons_of_mem _ h)
      · simp only [dictSet, if_neg ht, List.mem_cons] at h
        rcases h with h | h
        · exact Or.inl (by simp [h])
        · rcases ih h with h' | h'
          · exact Or.inl (List.mem_cons_of_mem _ h')
          · exact Or.inr h'

theorem dictLookup_mem {α : Type} {l : List (String × α)} {s : String}
    {v : α} (h : dictLookup l s = some v) : (s, v) ∈ l := by
  induction l with
  | nil => simp [dictLookup] at h
  | cons hd tl ih =>
      obtain ⟨t, w⟩ := hd
      by_cases ht : t = s
      · simp only [dictLookup, if_pos ht] at h
        simp [ht, ← Option.some_inj.mp h]
      · simp only [dictLookup, if_neg ht] at h
        exact List.mem_cons_of_mem _ (ih h)

theorem mem_dictErase {α : Type} {l : List (String × α)} {s : String}
    {e : String × α} (h : e ∈ dictErase l s) : e ∈ l := by
  induction l with
  | nil => simp [dictErase] at h
  | cons hd tl ih =>
      obtain ⟨t, w⟩ := hd
      by_cases ht : t = s
      · simp only [dictErase, if_pos ht] at h
        exact List.mem_cons_of_mem _ h
      · simp only [dictErase, if_neg ht, List.mem_cons] at h
        rcases h with h | h
        · simp [h]
        · exact List.mem_cons_of_mem _ (ih h)

theorem dictErase_dictSet {α : Type} {l : List (String × α)} {s : String}
    {w : α} (v : α) (h : dictLookup l s = some w) :
    dictErase (dictSet l s v) s = dictErase l s := by
  induction l with
  | nil => simp [dictLookup] at h
  | cons hd tl ih =>
      obtain ⟨t, u⟩ := hd
      by_cases ht : t = s
      · simp [dictSet, dictErase, if_pos ht]
      · simp only [dictLookup, if_neg ht] at h
        simp only [dictSet, dictErase, if_neg ht, ih h]

theorem dictLookup_dictErase_of_nodup {α : Type} {l : List (String × α)}
    {s : String} (h : (l.map Prod.fst).Nodup) :
    dictLookup (dictErase l s) s = none := by
  induction l with
  | nil => rfl
  | cons hd tl ih =>
      obtain ⟨t, w⟩ := hd
      simp only [List.map_cons, List.nodup_cons] at h
      by_cases ht : t = s
      · subst ht
        simp only [dictErase, if_pos rfl]
        exact dictLookup_eq_none_of_not_mem h.1
      · simp only [dictErase, dictLookup, if_neg ht]
        exact ih h.2

/-! ### C1: cooldown exhaustion -/

/-- A guardian one losing trade away from the severe-streak threshold:
streak -2, no cooldown, cautious sizing (the state `_adapt` itself
produces at streak -2). -/
def guardC1Start : RiskGuardianAgent :=
  ⟨⟨0.2, 0.8⟩, 0, 0.75, ⟨2, 0, 2, -2, ["Cautious Sizing (-25%)"]⟩⟩

/-- The guardian right after the adaptation on the third straight loss
set `cooldown_cycles_remaining` to 5 (streak -3). -/
def guardC1 : RiskGuardianAgent := guardC1Start.update_memory (-1)

/-- One `evaluate` call on a fixed BUY proposal with portfolio value 10000,
no open exposure and price 100; the guardian's memory is not updated in
between, as in the claim. -/
def evalStepC1 (g : RiskGuardianAgent) : Decision × RiskGuardianAgent :=
  g.evaluate .BUY 10000 0 100

def guardC1s1 : RiskGuardianAgent := (evalStepC1 guardC1).2
def guardC1s2 : RiskGuardianAgent := (evalStepC1 guardC1s1).2
def guardC1s3 : RiskGuardianAgent := (evalStepC1 guardC1s2).2
def guardC1s4 : RiskGuardianAgent := (evalStepC1 guardC1s3).2
def guardC1s5 : RiskGuardianAgent := (evalStepC1 guardC1s4).2

/-- C1: the claim's scenario evaluated on the code.  The adaptation on the
third straight loss arms the 5-cycle cooldown, and the first five
`evaluate` calls all return HOLD/amount 0 — but at the end of the fifth
call `_adapt` re-runs while the streak is still -3 and the counter has
just reached 0, so the cooldown is re-armed to 5 and the sixth call is
again cooldown-blocked instead of performing a normal evaluation (a
normal evaluation of the same BUY proposal from the same state would
approve it at amount 10). -/
theorem C1_cooldown_rearm_trace :
    guardC1.cooldown_cycles_remaining = 5 ∧
    guardC1.memory.current_streak = -3 ∧
    (evalStepC1 guardC1).1 = ⟨.HOLD, 0, "Blocked by active cooldown."⟩ ∧
    (evalStepC1 guardC1s1).1 = ⟨.HOLD, 0, "Blocked by active cooldown."⟩ ∧
    (evalStepC1 guardC1s2).1 = ⟨.HOLD, 0, "Blocked by active cooldown."⟩ ∧
    (evalStepC1 guardC1s3).1 = ⟨.HOLD, 0, "Blocked by active cooldown."⟩ ∧
    (evalStepC1 guardC1s4).1 = ⟨.HOLD, 0, "Blocked by active cooldown."⟩ ∧
    guardC1s5.cooldown_cycles_remaining = 5 ∧
    (evalStepC1 guardC1s5).1 = ⟨.HOLD, 0, "Blocked by active cooldown."⟩ ∧
    ({ guardC1s5 with cooldown_cycles_remaining := 0 } : RiskGuardianAgent)
      = ⟨⟨0.2, 0.8⟩, 0, 0.5,
          ⟨3, 0, 3, -3, ["Active Cooldown", "Reduced Sizing (-50%)"]⟩⟩ ∧
    (RiskGuardianAgent.evaluate
        ⟨⟨0.2, 0.8⟩, 0, 0.5,
          ⟨3, 0, 3, -3, ["Active Cooldown", "Reduced Sizing (-50%)"]⟩⟩
        .BUY 10000 0 100).1
      = ⟨.BUY, 10, "Sizing approved"⟩ := by
  refine ⟨by decide, by decide, by decide, by decide, by decide, by decide,
    by decide, by decide, by decide, rfl, ?_⟩
  norm_num [RiskGuardianAgent.evaluate, RiskEngine.calculate_position_size,
    RiskEngine.validate_position_size, RiskEngine.validate_exposure]

/-! ### C3: streak arithmetic -/

/-- C3 counterexample: a settled trade with `realized_pnl = 0` on a fresh
agent leaves `current_streak` at 0, so "after the call current_streak is
never zero" is false as stated. -/
theorem C3_zero_pnl_counterexample :
    (RiskGuardianAgent.update_memory
        ⟨⟨0.2, 0.8⟩, 0, 1, ⟨0, 0, 0, 0, []⟩⟩ 0).memory.current_streak = 0 := by
  decide

/-- C3 (amended): for every memory state and every `update_memory` call
with `realized_pnl ≠ 0`, the streak afterwards is never zero; a win after
a non-positive streak or a loss after a non-negative streak resets it to
the outcome's unit value (+1 / -1), and a same-direction outcome moves
the magnitude up by exactly one; the three concrete agents' `_adapt`
hooks never touch the streak.  (For `realized_pnl = 0` the code leaves
the streak unchanged, which is what breaks the original claim.) -/
theorem C3_streak_update (m : AgentMemory) (pnl : ℚ) (hp : pnl ≠ 0) :
    ((BaseAgent.update_memory_core m pnl).current_streak ≠ 0) ∧
    (0 < pnl →
      (m.current_streak ≤ 0 →
        (BaseAgent.update_memory_core m pnl).current_streak = 1) ∧
      (0 < m.current_streak →
        (BaseAgent.update_memory_core m pnl).current_streak
          = m.current_streak + 1)) ∧
    (pnl < 0 →
      (0 ≤ m.current_streak →
        (BaseAgent.update_memory_core m pnl).current_streak = -1) ∧
      (m.current_streak < 0 →
        (BaseAgent.update_memory_core m pnl).current_streak
          = m.current_streak - 1)) ∧
    (∀ a : ScoutAgent, (a.update_memory pnl).memory.current_streak
       = (BaseAgent.update_memory_core a.memory pnl).current_streak) ∧
    (∀ a : AnalystAgent, (a.update_memory pnl).memory.current_streak
       = (BaseAgent.update_memory_core a.memory pnl).current_streak) ∧
    (∀ g : RiskGuardianAgent, (g.update_memory pnl).memory.current_streak
       = (BaseAgent.update_memory_core g.memory pnl).current_streak) := by
  refine ⟨?_, ?_, ?_, ?_, ?_, ?_⟩
  · rcases lt_or_gt_of_ne hp with hneg | hpos
    · simp only [BaseAgent.update_memory_core, if_neg (not_lt.mpr hneg.le),
        if_pos hneg]
      split_ifs <;> omega
    · simp only [BaseAgent.update_memory_core, if_pos hpos]
      split_ifs <;> omega
  · intro hpos
    simp only [BaseAgent.update_memory_core, if_pos hpos]
    constructor
    · intro hle
      rw [if_neg (by omega)]
    · intro hgt
      rw [if_pos hgt]
  · intro hneg
    simp only [BaseAgent.update_memory_core, if_neg (not_lt.mpr hneg.le),
      if_pos hneg]
    constructor
    · intro hle
      rw [if_neg (by omega)]
    · intro hlt
      rw [if_pos hlt]
  · intro a
    unfold ScoutAgent.update_memory ScoutAgent._adapt
    split_ifs <;> rfl
  · intro a
    unfold AnalystAgent.update_memory AnalystAgent._adapt
    split_ifs <;> rfl
  · intro g
    unfold RiskGuardianAgent.update_memory RiskGuardianAgent._adapt
    split_ifs <;> rfl

/-- C3 witness: a loss following a two-win streak flips the streak to -1. -/
theorem C3_streak_update_witness :
    (BaseAgent.update_memory_core ⟨2, 2, 0, 2, []⟩ (-1)).current_streak = -1 :=
  ((C3_streak_update ⟨2, 2, 0, 2, []⟩ (-1) (by norm_num)).2.2.1
    (by norm_num)).1 (by norm_num)

/-! ### C2: ledger dust invariant -/

/-- States reachable from the initial ledger (balance 10000) by
`add_position` / `remove_position` calls with non-negative amounts and
positive prices — the claim's hypotheses. -/
inductive ReachableNN : PortfolioEngine → Prop where
  | init : ReachableNN ⟨10000, 10000, []⟩
  | add (p : PortfolioEngine) (s : String) (a pr : ℚ) :
      ReachableNN p → 0 ≤ a → 0 < pr → ReachableNN (p.add_position s a pr).2
  | remove (p : PortfolioEngine) (s : String) (a pr : ℚ) :
      ReachableNN p → 0 ≤ a → 0 < pr → ReachableNN (p.remove_position s a pr).2

/-- C2 counterexample: `add_position("X", 0, 1)` on the initial state is a
legal call under the claim (non-negative amount, positive price), yet it
creates an entry whose amount 0 is not > 1e-8, so "an entry exists iff its
amount is strictly greater than 1e-8" fails on a reachable state. -/
theorem C2_dust_entry_counterexample :
    ReachableNN ((⟨10000, 10000, []⟩ : PortfolioEngine).add_position "X" 0 1).2 ∧
    dictLookup ((⟨10000, 10000, []⟩ : PortfolioEngine).add_position
        "X" 0 1).2.positions "X" = some ⟨0, 1⟩ ∧
    ¬ ((0 : ℚ) > 1e-8) := by
  refine ⟨ReachableNN.add _ "X" 0 1 ReachableNN.init le_rfl (by norm_num), ?_, by norm_num⟩
  norm_num [PortfolioEngine.add_position, dictLookup, dictSet]

/-- States reachable from the initial ledger when every `add_position`
amount is at least the 1e-8 dust threshold (and prices are positive;
`remove_position` amounts need only be non-negative). -/
inductive ReachableDust : PortfolioEngine → Prop where
  | init : ReachableDust ⟨10000, 10000, []⟩
  | add (p : PortfolioEngine) (s : String) (a pr : ℚ) :
      ReachableDust p → 1e-8 ≤ a → 0 < pr →
      ReachableDust (p.add_position s a pr).2
  | remove (p : PortfolioEngine) (s : String) (a pr : ℚ) :
      ReachableDust p → 0 ≤ a → 0 < pr →
      ReachableDust (p.remove_position s a pr).2

theorem reachableDust_amount_floor {p : PortfolioEngine}
    (h : ReachableDust p) : ∀ e ∈ p.positions, (1e-8 : ℚ) ≤ e.2.amount := by
  induction h with
  | init =>
      intro e he
      simp at he
  | add p s a pr hp ha hpr ih =>
      intro e he
      simp only [PortfolioEngine.add_position] at he
      split at he
      · exact ih e he
      · split at he
        next old hl =>
          simp only at he
          rcases mem_dictSet he with hmem | hnew
          · exact ih e hmem
          · have hold := ih (s, old) (dictLookup_mem hl)
            simp only at hold
            rw [hnew]
            simp only
            linarith
        next hl =>
          simp only at he
          rcases mem_dictSet he with hmem | hnew
          · exact ih e hmem
          · rw [hnew]
            exact ha
  | remove p s a pr hp ha hpr ih =>
      intro e he
      simp only [PortfolioEngine.remove_position] at he
      split at he
      next hl => exact ih e he
      next pos hl =>
        split at he
        · exact ih e he
        next hge =>
          simp only at he
          split at he
          · rw [dictErase_dictSet _ hl] at he
            exact ih e (mem_dictErase he)
          next hbig =>
            rcases mem_dictSet he with hmem | hnew
            · exact ih e hmem
            · rw [hnew]
              simpa using le_of_not_lt hbig

/-- C2 (amended): the code maintains a weaker dust invariant than claimed:
when every buy amount is at least 1e-8, every entry in the ledger has
amount ≥ 1e-8 (the bound is not strict — a sell leaving exactly 1e-8
keeps the entry — and buys of amounts below 1e-8, allowed by the original
claim, can create entries below the threshold). -/
theorem C2_amount_floor_invariant (p : PortfolioEngine) (s : String)
    (pos : Position) (hreach : ReachableDust p)
    (hlook : dictLookup p.positions s = some pos) :
    (1e-8 : ℚ) ≤ pos.amount :=
  reachableDust_amount_floor hreach (s, pos) (dictLookup_mem hlook)

/-- C2 witness: the invariant applied to the state after one concrete buy. -/
theorem C2_amount_floor_invariant_witness :
    (1e-8 : ℚ) ≤ (Position.mk 1 100).amount :=
  C2_amount_floor_invariant _ "X" ⟨1, 100⟩
    (ReachableDust.add _ "X" 1 100 ReachableDust.init (by norm_num) (by norm_num))
    (by norm_num [PortfolioEngine.add_position, dictLookup, dictSet])

/-! ### C4: buy/sell round trip -/

/-- C4 counterexample: from a state already holding 1 unit of "X" at entry
100 (cash 9900), buying 1 more unit at 100 and immediately selling 1 unit
at 100 satisfies all of the claim's hypotheses (positive amount and
price, cost within cash) and does restore the cash balance — but the
position entry for "X" survives the round trip, so "leaves no position
entry for that symbol" is false. -/
theorem C4_roundtrip_counterexample :
    (0 : ℚ) < 1 ∧ (0 : ℚ) < 100 ∧ (1 * 100 : ℚ) ≤ 9900 ∧
    (((⟨10000, 9900, [("X", ⟨1, 100⟩)]⟩ : PortfolioEngine).add_position
        "X" 1 100).2.remove_position "X" 1 100).2.positions
      = [("X", ⟨1, 100⟩)] := by
  refine ⟨by norm_num, by norm_num, by norm_num, ?_⟩
  norm_num [PortfolioEngine.add_position, PortfolioEngine.remove_position,
    dictLookup, dictSet, dictErase]

/-- C4 (amended): the round-trip law holds as stated only when the symbol
is not already held: for every state with no entry for the symbol and
every amount a > 0, price p > 0 with a·p within cash, `add_position`
followed by `remove_position` of the identical amount at the identical
price restores the cash balance exactly and leaves no position entry for
the symbol.  (When the symbol is already held, cash is still restored but
the merged entry survives with its pre-buy amount.) -/
theorem C4_roundtrip (p : PortfolioEngine) (s : String) (a pr : ℚ)
    (hnone : dictLookup p.positions s = none) (ha : 0 < a) (hpr : 0 < pr)
    (hcash : a * pr ≤ p.cash_balance) :
    ((p.add_position s a pr).2.remove_position s a pr).2.cash_balance
        = p.cash_balance ∧
    dictLookup (((p.add_position s a pr).2.remove_position s a pr).2.positions)
        s = none := by
  have hadd : (p.add_position s a pr).2
      = { p with
          cash_balance := p.cash_balance - a * pr
          positions := p.positions ++ [(s, ⟨a, pr⟩)] } := by
    simp only [PortfolioEngine.add_position, if_neg (not_lt.mpr hcash), hnone,
      dictSet_eq_append_of_none _ hnone]
  have hlook1 : dictLookup (p.positions ++ [(s, (⟨a, pr⟩ : Position))]) s
      = some ⟨a, pr⟩ := by
    rw [dictLookup_append_of_eq_none _ hnone]
    simp [dictLookup]
  have hrem : (((p.add_position s a pr).2.remove_position s a pr)).2
      = { p with
          cash_balance := p.cash_balance - a * pr + a * pr
          positions := p.positions } := by
    rw [hadd]
    simp only [PortfolioEngine.remove_position, hlook1, lt_irrefl, if_neg,
      not_false_iff, sub_self]
    rw [if_pos (by norm_num : (0 : ℚ) < 1e-8)]
    rw [dictSet_append_of_eq_none _ _ hnone,
      dictErase_append_of_eq_none _ hnone]
    simp [dictSet, dictErase]
  rw [hrem]
  constructor
  · simp
  · exact hnone

/-- C4 witness: a fresh 1-unit buy of "X" at price 100 on the initial
ledger, followed by the identical sell, restores cash 10000 and leaves no
entry. -/
theorem C4_roundtrip_witness :
    (((⟨10000, 10000, []⟩ : PortfolioEngine).add_position
        "X" 1 100).2.remove_position "X" 1 100).2.cash_balance = 10000 ∧
    dictLookup (((⟨10000, 10000, []⟩ : PortfolioEngine).add_position
        "X" 1 100).2.remove_position "X" 1 100).2.positions "X" = none :=
  C4_roundtrip ⟨10000, 10000, []⟩ "X" 1 100 rfl (by norm_num) (by norm_num)
    (by norm_num)

/-! ### C5: BUY sizing and the two risk checks -/

/-- C5: while not cooling down, a BUY proposal is sized at
(portfolio_value · max_position_pct / price) · size_modifier; it is
approved at exactly that amount iff the proposed value passes both the
position-size check and the exposure check, and a rejection reports the
position-size check whenever it fails (even if both fail) and the
exposure check only when the position-size check passes. -/
theorem C5_buy_evaluation (g : RiskGuardianAgent) (pv ov pr : ℚ)
    (hcd : g.cooldown_cycles_remaining = 0) :
    ((g.evaluate .BUY pv ov pr).1.signal = .BUY ↔
      (g.risk_engine.calculate_position_size pv pr * g.size_modifier) * pr
          ≤ pv * g.risk_engine.max_position_pct ∧
      ov + (g.risk_engine.calculate_position_size pv pr * g.size_modifier) * pr
          ≤ pv * g.risk_engine.max_exposure_pct) ∧
    ((g.evaluate .BUY pv ov pr).1.signal = .BUY →
      (g.evaluate .BUY pv ov pr).1.amount
        = g.risk_engine.calculate_position_size pv pr * g.size_modifier) ∧
    (¬ ((g.risk_engine.calculate_position_size pv pr * g.size_modifier) * pr
          ≤ pv * g.risk_engine.max_position_pct) →
      (g.evaluate .BUY pv ov pr).1
        = ⟨.HOLD, 0, "Risk Rejected: Max Position Size limit"⟩) ∧
    ((g.risk_engine.calculate_position_size pv pr * g.size_modifier) * pr
          ≤ pv * g.risk_engine.max_position_pct →
      ¬ (ov + (g.risk_engine.calculate_position_size pv pr * g.size_modifier) * pr
          ≤ pv * g.risk_engine.max_exposure_pct) →
      (g.evaluate .BUY pv ov pr).1
        = ⟨.HOLD, 0, "Risk Rejected: Max Exposure limit"⟩) := by
  by_cases hs : (g.risk_engine.calculate_position_size pv pr * g.size_modifier)
      * pr ≤ pv * g.risk_engine.max_position_pct <;>
  by_cases he : ov + (g.risk_engine.calculate_position_size pv pr
      * g.size_modifier) * pr ≤ pv * g.risk_engine.max_exposure_pct <;>
  simp [RiskGuardianAgent.evaluate, hcd, RiskEngine.validate_position_size,
    RiskEngine.validate_exposure, hs, he]

/-- C5 witness: the default risk limits approve a plain BUY at 20 units
(2000 value against a 10000 portfolio). -/
theorem C5_buy_evaluation_witness :
    ((RiskGuardianAgent.mk ⟨0.2, 0.8⟩ 0 1 ⟨0, 0, 0, 0, []⟩).evaluate
        .BUY 10000 0 100).1.signal = .BUY :=
  (C5_buy_evaluation ⟨⟨0.2, 0.8⟩, 0, 1, ⟨0, 0, 0, 0, []⟩⟩ 10000 0 100 rfl).1.mpr
    ⟨by norm_num [RiskEngine.calculate_position_size],
     by norm_num [RiskEngine.calculate_position_size]⟩

/-! ### C7: parameter-update bounds -/

/-- C7: out-of-bound parameter updates are silent no-ops and in-bound
values are applied: strategy windows change only when
0 < short < long (both together), and each risk percentage changes
independently exactly when it lies in (0, 1]. -/
theorem C7_parameter_updates (e : StrategyEngine) (sw lw : ℤ)
    (re : RiskEngine) (a b : ℚ) :
    (¬ (0 < sw ∧ sw < lw) → e.update_strategy_parameters sw lw = e) ∧
    ((0 < sw ∧ sw < lw) → e.update_strategy_parameters sw lw = ⟨sw, lw⟩) ∧
    (¬ (0 < a ∧ a ≤ 1) →
      (re.update_risk_parameters a b).max_position_pct = re.max_position_pct) ∧
    ((0 < a ∧ a ≤ 1) → (re.update_risk_parameters a b).max_position_pct = a) ∧
    (¬ (0 < b ∧ b ≤ 1) →
      (re.update_risk_parameters a b).max_exposure_pct = re.max_exposure_pct) ∧
    ((0 < b ∧ b ≤ 1) → (re.update_risk_parameters a b).max_exposure_pct = b) := by
  unfold StrategyEngine.update_strategy_parameters RiskEngine.update_risk_parameters
  refine ⟨fun h => if_neg h, fun h => if_pos h, fun h => ?_, fun h => ?_,
    fun h => ?_, fun h => ?_⟩ <;> split_ifs <;> simp_all

/-- C7 witness: swapped windows (50, 20) are rejected while the prior
(20, 50) configuration is kept, and an exposure percentage of 1.5 is
rejected while 0.5 is accepted for the position percentage. -/
theorem C7_parameter_updates_witness :
    StrategyEngine.update_strategy_parameters ⟨20, 50⟩ 50 20 = ⟨20, 50⟩ ∧
    (RiskEngine.update_risk_parameters ⟨0.2, 0.8⟩ 0.5 1.5).max_position_pct
      = 0.5 ∧
    (RiskEngine.update_risk_parameters ⟨0.2, 0.8⟩ 0.5 1.5).max_exposure_pct
      = 0.8 :=
  ⟨(C7_parameter_updates ⟨20, 50⟩ 50 20 ⟨0.2, 0.8⟩ 0.5 1.5).1 (by norm_num),
   (C7_parameter_updates ⟨20, 50⟩ 50 20 ⟨0.2, 0.8⟩ 0.5 1.5).2.2.2.1 (by norm_num),
   (C7_parameter_updates ⟨20, 50⟩ 50 20 ⟨0.2, 0.8⟩ 0.5 1.5).2.2.2.2.1 (by norm_num)⟩

/-! ### C9: aggressive sizing can never execute a buy -/

/-- C9: with a positive portfolio value, price and position percentage,
any size_modifier above 1 (in particular the 1.25 set by `_adapt` on a
win streak of 3 or more) makes the proposed trade value equal to
size_modifier · max_position_pct · portfolio_value, strictly above the
position-size cap, so the position-size check fails and every BUY is
rejected with the position-size reason. -/
theorem C9_aggressive_sizing_never_buys (g : RiskGuardianAgent)
    (pv ov pr : ℚ) (hcd : g.cooldown_cycles_remaining = 0) (hpv : 0 < pv)
    (hpr : 0 < pr) (hmpp : 0 < g.risk_engine.max_position_pct)
    (hmod : 1 < g.size_modifier) :
    (g.risk_engine.calculate_position_size pv pr * g.size_modifier) * pr
      = g.size_modifier * (g.risk_engine.max_position_pct * pv) ∧
    g.risk_engine.max_position_pct * pv
      < g.size_modifier * (g.risk_engine.max_position_pct * pv) ∧
    g.risk_engine.validate_position_size pv
      ((g.risk_engine.calculate_position_size pv pr * g.size_modifier) * pr)
      = false ∧
    (g.evaluate .BUY pv ov pr).1
      = ⟨.HOLD, 0, "Risk Rejected: Max Position Size limit"⟩ ∧
    (∀ g' : RiskGuardianAgent, 3 ≤ g'.memory.current_streak →
      (RiskGuardianAgent._adapt g').size_modifier = 1.25) := by
  have hval : (g.risk_engine.calculate_position_size pv pr * g.size_modifier)
      * pr = g.size_modifier * (g.risk_engine.max_position_pct * pv) := by
    unfold RiskEngine.calculate_position_size
    field_simp
    ring
  have hcap : 0 < g.risk_engine.max_position_pct * pv := mul_pos hmpp hpv
  have hlt : g.risk_engine.max_position_pct * pv
      < g.size_modifier * (g.risk_engine.max_position_pct * pv) := by
    nlinarith
  have hfail : ¬ ((g.risk_engine.calculate_position_size pv pr
      * g.size_modifier) * pr ≤ pv * g.risk_engine.max_position_pct) := by
    rw [hval]
    rw [mul_comm pv g.risk_engine.max_position_pct]
    exact not_le.mpr hlt
  refine ⟨hval, hlt, ?_, ?_, ?_⟩
  · simp [RiskEngine.validate_position_size, hfail, not_le.mp hfail]
  · have hlt2 := not_le.mp hfail
    simp [RiskGuardianAgent.evaluate, hcd, RiskEngine.validate_position_size,
      RiskEngine.validate_exposure, hfail, hlt2]
  · intro g' h3
    unfold RiskGuardianAgent._adapt
    rw [if_neg (by omega), if_neg (by omega), if_pos h3]

/-- C9 witness: the guardian in its aggressive-sizing state (streak +3,
modifier 1.25) rejects a BUY against the default limits. -/
theorem C9_aggressive_sizing_never_buys_witness :
    ((RiskGuardianAgent.mk ⟨0.2, 0.8⟩ 0 1.25 ⟨4, 3, 1, 3,
        ["Aggressive Sizing (+25%)"]⟩).evaluate .BUY 10000 0 100).1
      = ⟨.HOLD, 0, "Risk Rejected: Max Position Size limit"⟩ :=
  (C9_aggressive_sizing_never_buys
    ⟨⟨0.2, 0.8⟩, 0, 1.25, ⟨4, 3, 1, 3, ["Aggressive Sizing (+25%)"]⟩⟩
    10000 0 100 rfl (by norm_num) (by norm_num) (by norm_num)
    (by norm_num)).2.2.2.1

/-! ### C10: inconsistent valuation of other-symbol positions -/

/-- C10: inside `execute_cycle` the price map handed to the valuation
helpers is the singleton {traded symbol ↦ current price}; a held position
in any other symbol is then skipped entirely by `get_portfolio_value`
(removing it from the list leaves the portfolio value unchanged) while
the inline exposure sum still counts it at its average entry price. -/
theorem C10_valuation_inconsistency (ib cash : ℚ)
    (l1 l2 : List (String × Position)) (t s : String) (pos : Position)
    (pr : ℚ) (hts : t ≠ s) :
    PortfolioEngine.get_portfolio_value ⟨ib, cash, l1 ++ (t, pos) :: l2⟩
        [(s, pr)]
      = PortfolioEngine.get_portfolio_value ⟨ib, cash, l1 ++ l2⟩ [(s, pr)] ∧
    ExecutionEngine.total_open_value (l1 ++ (t, pos) :: l2) [(s, pr)]
      = ExecutionEngine.total_open_value (l1 ++ l2) [(s, pr)]
        + pos.amount * pos.average_entry_price := by
  have hlt : dictLookup [(s, pr)] t = none := by
    simp [dictLookup, Ne.symm hts]
  constructor
  · simp [PortfolioEngine.get_portfolio_value, List.map_append, hlt]
  · simp [ExecutionEngine.total_open_value, List.map_append, hlt]
    ring

/-- C10 witness: with BTC the traded symbol at price 100, a 2-unit ETH
position bought at 50 adds nothing to the portfolio value but adds 100 to
the exposure sum. -/
theorem C10_valuation_inconsistency_witness :
    PortfolioEngine.get_portfolio_value ⟨10000, 1000, [("ETH", ⟨2, 50⟩)]⟩
        [("BTC", 100)]
      = PortfolioEngine.get_portfolio_value ⟨10000, 1000, []⟩ [("BTC", 100)] ∧
    ExecutionEngine.total_open_value [("ETH", ⟨2, 50⟩)] [("BTC", 100)]
      = ExecutionEngine.total_open_value [] [("BTC", 100)]
        + (Position.mk 2 50).amount * (Position.mk 2 50).average_entry_price :=
  C10_valuation_inconsistency 10000 1000 [] [] "ETH" "BTC" ⟨2, 50⟩ 100
    (by decide)

/-! ### C6: SMA crossover signal -/

/-- Helper for C6: once both long-window rolling means of the last two
rows are defined, `generate_signal` reduces to the crossover ifs. -/
theorem generate_signal_of_defined {short long : ℕ} {closes : List ℚ}
    {ps pl ls ll : ℚ}
    (h0 : ¬ (closes.length = 0 ∨ closes.length < long))
    (h2 : ¬ closes.length < 2)
    (hps : smaOfLast short closes.dropLast = some ps)
    (hpl : smaOfLast long closes.dropLast = some pl)
    (hls : smaOfLast short closes = some ls)
    (hll : smaOfLast long closes = some ll) :
    generate_signal short long closes
      = if ps ≤ pl ∧ ll < ls then .BUY
        else if pl ≤ ps ∧ ls < ll then .SELL else .HOLD := by
  unfold generate_signal
  rw [if_neg h0, if_neg h2, hps, hpl, hls, hll]
  simp only [Option.isNone_some, Bool.or_self, Bool.false_eq_true, if_false,
    oLE, oLT, Bool.and_eq_true, decide_eq_true_eq]
  simp

/-- Helper for C6: case analysis of the crossover decision. -/
theorem crossover_ite_cases (ps pl ls ll : ℚ) :
    ((if ps ≤ pl ∧ ll < ls then Signal.BUY
      else if pl ≤ ps ∧ ls < ll then Signal.SELL else Signal.HOLD) = .BUY
        ↔ ps ≤ pl ∧ ll < ls) ∧
    ((if ps ≤ pl ∧ ll < ls then Signal.BUY
      else if pl ≤ ps ∧ ls < ll then Signal.SELL else Signal.HOLD) = .SELL
        ↔ pl ≤ ps ∧ ls < ll) ∧
    (¬ (ps ≤ pl ∧ ll < ls) → ¬ (pl ≤ ps ∧ ls < ll) →
      (if ps ≤ pl ∧ ll < ls then Signal.BUY
       else if pl ≤ ps ∧ ls < ll then Signal.SELL else Signal.HOLD)
        = .HOLD) := by
  refine ⟨?_, ?_, fun hA hB => by rw [if_neg hA, if_neg hB]⟩
  · by_cases hA : ps ≤ pl ∧ ll < ls
    · rw [if_pos hA]
      exact iff_of_true rfl hA
    · rw [if_neg hA]
      split_ifs with hB
      · exact iff_of_false (by decide) hA
      · exact iff_of_false (by decide) hA
  · by_cases hA : ps ≤ pl ∧ ll < ls
    · rw [if_pos hA]
      exact iff_of_false (by decide)
        (fun hB => absurd (lt_trans hA.2 hB.2) (lt_irrefl _))
    · rw [if_neg hA]
      split_ifs with hB
      · exact iff_of_true rfl hB
      · exact iff_of_false (by decide) hB

/-- C6: `generate_signal` returns HOLD on series shorter than the long
window; with the long window satisfied it still returns HOLD when the
second-to-last long-window mean is undefined (series length exactly the
long window); otherwise it returns BUY iff the short mean was ≤ the long
mean at the second-to-last sample and is strictly above it at the last
sample, SELL under the symmetric condition, and HOLD in all remaining
cases. -/
theorem C6_generate_signal_spec (short long : ℕ) (hs : 0 < short)
    (hsl : short ≤ long) (closes : List ℚ) :
    (closes.length < long → generate_signal short long closes = .HOLD) ∧
    (long ≤ closes.length → closes.length < long + 1 →
      generate_signal short long closes = .HOLD) ∧
    (long + 1 ≤ closes.length →
      ∃ ps pl ls ll,
        smaOfLast short closes.dropLast = some ps ∧
        smaOfLast long closes.dropLast = some pl ∧
        smaOfLast short closes = some ls ∧
        smaOfLast long closes = some ll ∧
        (generate_signal short long closes = .BUY ↔ ps ≤ pl ∧ ll < ls) ∧
        (generate_signal short long closes = .SELL ↔ pl ≤ ps ∧ ls < ll) ∧
        (¬ (ps ≤ pl ∧ ll < ls) → ¬ (pl ≤ ps ∧ ls < ll) →
          generate_signal short long closes = .HOLD)) := by
  refine ⟨?_, ?_, ?_⟩
  · intro h
    unfold generate_signal
    rw [if_pos (Or.inr h)]
  · intro h1 h2
    unfold generate_signal
    rw [if_neg (by omega)]
    by_cases h2' : closes.length < 2
    · rw [if_pos h2']
    · rw [if_neg h2']
      have hpl : smaOfLast long closes.dropLast = none := by
        unfold smaOfLast
        rw [if_neg]
        simp only [List.length_dropLast, not_and, not_le]
        omega
      rw [hpl]
      simp
  · intro h
    have h0 : ¬ (closes.length = 0 ∨ closes.length < long) := by omega
    have h2 : ¬ closes.length < 2 := by omega
    have hps : smaOfLast short closes.dropLast
        = some ((closes.dropLast.drop (closes.dropLast.length - short)).sum
            / (short : ℚ)) := by
      unfold smaOfLast
      rw [if_pos ⟨hs, by simp only [List.length_dropLast]; omega⟩]
    have hpl : smaOfLast long closes.dropLast
        = some ((closes.dropLast.drop (closes.dropLast.length - long)).sum
            / (long : ℚ)) := by
      unfold smaOfLast
      rw [if_pos ⟨by omega, by simp only [List.length_dropLast]; omega⟩]
    have hls : smaOfLast short closes
        = some ((closes.drop (closes.length - short)).sum / (short : ℚ)) := by
      unfold smaOfLast
      rw [if_pos ⟨hs, by omega⟩]
    have hll : smaOfLast long closes
        = some ((closes.drop (closes.length - long)).sum / (long : ℚ)) := by
      unfold smaOfLast
      rw [if_pos ⟨by omega, by omega⟩]
    refine ⟨_, _, _, _, hps, hpl, hls, hll, ?_, ?_, ?_⟩ <;>
      rw [generate_signal_of_defined h0 h2 hps hpl hls hll]
    · exact (crossover_ite_cases _ _ _ _).1
    · exact (crossover_ite_cases _ _ _ _).2.1
    · exact (crossover_ite_cases _ _ _ _).2.2

/-- C6 witness: a single-element series is below the 2-sample long window
and yields HOLD. -/
theorem C6_generate_signal_spec_witness :
    generate_signal 1 2 [(5 : ℚ)] = .HOLD :=
  (C6_generate_signal_spec 1 2 (by norm_num) (by norm_num) [5]).1 (by norm_num)

/-! ### C8: SELL settlement path -/

/-- C8: for an already-computed guardian decision, the execution tail of
`execute_cycle` updates agent memories only on the SELL path; a SELL with
no held position (absent entry, or a non-positive amount) changes nothing
at all, and a SELL with a held position liquidates the full held amount
(the entry disappears), credits cash at the exit price, pushes realized
P&L = (exit - average entry) x amount into all three agents' memories,
and appends exactly one SELL record to the trade log. -/
theorem C8_sell_execution (st : ExecutionEngine) (symbol : String) (pr : ℚ)
    (d : Decision)
    (hnd : (st.portfolio.positions.map Prod.fst).Nodup) :
    (d.signal ≠ .SELL →
      (st.execute_decision symbol pr d).scout = st.scout ∧
      (st.execute_decision symbol pr d).analyst = st.analyst ∧
      (st.execute_decision symbol pr d).guardian = st.guardian) ∧
    (d.signal = .SELL →
      ((∀ pos, st.portfolio.get_position symbol = some pos → pos.amount ≤ 0) →
        st.execute_decision symbol pr d = st) ∧
      (∀ pos, st.portfolio.get_position symbol = some pos → 0 < pos.amount →
        (st.execute_decision symbol pr d).portfolio.get_position symbol
          = none ∧
        (st.execute_decision symbol pr d).portfolio.cash_balance
          = st.portfolio.cash_balance + pos.amount * pr ∧
        (st.execute_decision symbol pr d).scout
          = st.scout.update_memory
              ((pr - pos.average_entry_price) * pos.amount) ∧
        (st.execute_decision symbol pr d).analyst
          = st.analyst.update_memory
              ((pr - pos.average_entry_price) * pos.amount) ∧
        (st.execute_decision symbol pr d).guardian
          = st.guardian.update_memory
              ((pr - pos.average_entry_price) * pos.amount) ∧
        (st.execute_decision symbol pr d).trade_history
          = st.trade_history
              ++ [⟨symbol, "SELL", pos.amount, pr, pos.amount * pr⟩])) := by
  constructor
  · intro hne
    rcases hd : d.signal with _ | _ | _
    · simp only [ExecutionEngine.execute_decision, hd]
      split <;> simp
    · exact absurd hd hne
    · simp [ExecutionEngine.execute_decision, hd]
  · intro hd
    constructor
    · intro hall
      simp only [ExecutionEngine.execute_decision, hd]
      cases hlp : st.portfolio.get_position symbol with
      | none => simp only [hlp]
      | some pos =>
          simp only [hlp]
          rw [if_neg (not_lt.mpr (hall pos hlp))]
    · intro pos hlp hpos
      have hlook : dictLookup st.portfolio.positions symbol = some pos := hlp
      have hrm : st.portfolio.remove_position symbol pos.amount pr
          = (true, { st.portfolio with
              cash_balance := st.portfolio.cash_balance + pos.amount * pr
              positions := dictErase (dictSet st.portfolio.positions symbol
                ⟨pos.amount - pos.amount, pos.average_entry_price⟩) symbol }) := by
        simp only [PortfolioEngine.remove_position, hlook]
        rw [if_neg (lt_irrefl pos.amount)]
        rw [if_pos (by rw [sub_self]; norm_num : pos.amount - pos.amount < 1e-8)]
      simp only [ExecutionEngine.execute_decision, hd, hlp, if_pos hpos, hrm]
      refine ⟨?_, rfl, rfl, rfl, rfl, rfl⟩
      show dictLookup (dictErase (dictSet st.portfolio.positions symbol
        ⟨pos.amount - pos.amount, pos.average_entry_price⟩) symbol) symbol = none
      rw [dictErase_dictSet _ hlook]
      exact dictLookup_dictErase_of_nodup hnd

/-- Concrete pipeline state used by the C8 witness: 1 unit of "X" held at
entry 100, fresh agents. -/
def execC8 : ExecutionEngine :=
  ⟨⟨10000, 9900, [("X", ⟨1, 100⟩)]⟩, [],
   ⟨0.05, ⟨0, 0, 0, 0, []⟩⟩,
   ⟨⟨20, 50⟩, false, ⟨0, 0, 0, 0, []⟩⟩,
   ⟨⟨0.2, 0.8⟩, 0, 1, ⟨0, 0, 0, 0, []⟩⟩⟩

/-- C8 witness: selling the held unit of "X" at 110 removes the entry and
logs one SELL record. -/
theorem C8_sell_execution_witness :
    (execC8.execute_decision "X" 110 ⟨.SELL, -1, "Sell approved by risk logic."⟩).portfolio.get_position "X"
      = none ∧
    (execC8.execute_decision "X" 110 ⟨.SELL, -1, "Sell approved by risk logic."⟩).trade_history
      = [⟨"X", "SELL", 1, 110, 1 * 110⟩] :=
  have h := (C8_sell_execution execC8 "X" 110
      ⟨.SELL, -1, "Sell approved by risk logic."⟩ (by simp [execC8])).2 rfl
  ⟨(h.2 ⟨1, 100⟩ rfl (by norm_num)).1,
   (h.2 ⟨1, 100⟩ rfl (by norm_num)).2.2.2.2.2⟩
